import Mathlib

/-!
Verification of the zyra tool-invocation subsystem.

This file gives a shallow embedding of the tool-invocation core of the
repository: the tool type model (`src/tools/types.ts`), the registry
(`src/tools/registry.ts`), the file-system tools (`src/tools/fileSystemTools.ts`),
the search tools (`src/tools/searchTools.ts`), the bash tool
(`terminalTools.ts`) and the orchestrator (`AIClient.queryAIWithTools` in
`aiClient.ts`), followed by theorems settling the specification claims.

Modelling conventions:
- JavaScript runtime values flowing through tool inputs are modelled by the
  inductive `Value` (string / number / boolean / array / object / null), with
  `typeof`-style checks mirrored by `jsTypeof` and `validateParameterType`.
- A JS `Map` is modelled as an insertion-ordered association list; `Map.set`
  replaces the value in place when the key exists and appends otherwise.
- The file system is modelled as an association list from (already resolved)
  paths to file contents; `path.resolve` is modelled as the identity and
  directories are not modelled (no claim depends on them).
- Effectful handlers become explicit state-passing functions; the bash
  subprocess is modelled by its observable behaviour (`ProcBehavior`).
-/

/-! ## Tool type model (src/tools/types.ts) -/

/-- The five declarable parameter kinds of `ToolParameter.type` in
`src/tools/types.ts` (the TS union of string literals). -/
inductive ParamType where
  | string
  | number
  | boolean
  | array
  | object
deriving DecidableEq, Repr

/-- Runtime JavaScript values carried by tool inputs and outputs. -/
inductive Value where
  | vStr (s : String)
  | vNum (n : Int)
  | vBool (b : Bool)
  | vArr (xs : List Value)
  | vObj (fields : List (String × Value))
  | vNull
deriving Repr

/-- Tool input objects (`ToolInput` in types.ts): a string-keyed object,
modelled as an association list of fields. -/
abbrev ToolInput := List (String × Value)

/-- The `ToolOutput` interface of types.ts: success flag, optional structured
payload, optional error message. -/
structure ToolOutput where
  success : Bool
  data : Option Value
  error : Option String
deriving Repr

/-- The `ToolParameter` interface of types.ts. -/
structure ToolParameter where
  name : String
  type : ParamType
  description : String
  required : Bool
  dfault : Option Value

/-- The `Tool` interface of types.ts; the handler is modelled as a pure
function from the (already decoded) input to its output. -/
structure Tool where
  name : String
  description : String
  parameters : List ToolParameter
  execute : ToolInput → ToolOutput

/-- A parsed tool call (`ToolCall` in types.ts). -/
structure ToolCall where
  tool : String
  input : ToolInput

/-! ## Registry (src/tools/registry.ts) -/

/-- The state of `ToolRegistryImpl`: the `tools : Map<string, Tool>` field,
modelled as an insertion-ordered association list. -/
structure RegistryState where
  tools : List (String × Tool)

/-- JavaScript `Map.prototype.set`: if the key is present the value is
replaced in place (keeping the original insertion position), otherwise the
entry is appended at the end. -/
def mapSet : List (String × Tool) → String → Tool → List (String × Tool)
  | [], k, t => [(k, t)]
  | e :: rest, k, t => if e.1 = k then (k, t) :: rest else e :: mapSet rest k t

/-- JavaScript `Map.prototype.get`: exact (case-sensitive) key lookup. -/
def mapGet : List (String × Tool) → String → Option Tool
  | [], _ => none
  | e :: rest, k => if e.1 = k then some e.2 else mapGet rest k

/-- The `register` method of `ToolRegistryImpl` (registry.ts line 12):
`this.tools.set(tool.name, tool)`.  It returns `void` and has no failure
channel. -/
def registerTool (r : RegistryState) (t : Tool) : RegistryState :=
  { tools := mapSet r.tools t.name t }

/-- JavaScript `typeof` (with the registry's refinements pushed into
`validateParameterType`); used only to build the mismatch message. -/
def jsTypeof : Value → String
  | .vStr _ => "string"
  | .vNum _ => "number"
  | .vBool _ => "boolean"
  | .vArr _ => "object"
  | .vObj _ => "object"
  | .vNull => "object"

/-- Printable name of a declared parameter kind, as it appears in the
validation error message. -/
def paramTypeName : ParamType → String
  | .string => "string"
  | .number => "number"
  | .boolean => "boolean"
  | .array => "array"
  | .object => "object"

/-- The `validateParameterType` method of `ToolRegistryImpl` (registry.ts
lines 77-92): `string`/`number`/`boolean` by `typeof`, `array` by
`Array.isArray`, `object` by `typeof value === "object"` excluding `null`
and arrays. -/
def validateParameterType (v : Value) (expected : ParamType) : Bool :=
  match expected with
  | .string => match v with | .vStr _ => true | _ => false
  | .number => match v with | .vNum _ => true | _ => false
  | .boolean => match v with | .vBool _ => true | _ => false
  | .array => match v with | .vArr _ => true | _ => false
  | .object => match v with | .vObj _ => true | _ => false

/-- Single-quoting used by the registry error message templates. -/
def quoted (s : String) : String := "'" ++ s ++ "'"

/-- Field lookup on a tool input object: the JS `param.name in input` test
and `input[param.name]` read. -/
def fieldGet : ToolInput → String → Option Value
  | [], _ => none
  | e :: rest, k => if e.1 = k then some e.2 else fieldGet rest k

/-- The `validateInput` method of `ToolRegistryImpl` (registry.ts lines
54-75): walk the declared parameters; a required parameter absent from the
input fails, a supplied declared parameter of the wrong runtime kind fails;
the first failure wins.  Returns the failure message, or `none` on success. -/
def validateInput : List ToolParameter → ToolInput → Option String
  | [], _ => none
  | p :: ps, input =>
    if p.required && (fieldGet input p.name).isNone then
      some ("Required parameter " ++ quoted p.name ++ " is missing")
    else
      match fieldGet input p.name with
      | some v =>
        if validateParameterType v p.type then validateInput ps input
        else some ("Parameter " ++ quoted p.name ++ " has invalid type. Expected "
          ++ paramTypeName p.type ++ ", got " ++ jsTypeof v)
      | none => validateInput ps input

/-- The `execute` method of `ToolRegistryImpl` (registry.ts lines 24-52):
look up the tool (not-found error if absent), validate the input, then call
the handler with the raw input object.  Note the handler receives
`toolCall.input` itself: declared defaults are never merged in. -/
def registryExecute (r : RegistryState) (call : ToolCall) : ToolOutput :=
  match mapGet r.tools call.tool with
  | none => { success := false, data := none, error := some ("Tool " ++ quoted call.tool ++ " not found") }
  | some tool =>
    match validateInput tool.parameters call.input with
    | some msg =>
      { success := false, data := none,
        error := some ("Invalid input for tool " ++ quoted call.tool ++ ": " ++ msg) }
    | none => tool.execute call.input

/-! ## String helpers shared by the tools

`strLower` models `String.prototype.toLowerCase` (ASCII-faithful),
`leadsList` models `String.prototype.startsWith` on char lists, and
`hasSub` models `String.prototype.includes`. -/

/-- Lower-casing of a string, character by character (JS `toLowerCase`). -/
def strLower (s : String) : String := String.mk (s.data.map Char.toLower)

/-- Prefix test on char lists (JS `startsWith`). -/
def leadsList : List Char → List Char → Bool
  | [], _ => true
  | _ :: _, [] => false
  | a :: as, b :: bs => a == b && leadsList as bs

/-- Substring test on char lists (JS `includes`): the needle occurs as a
contiguous run of the haystack. -/
def hasSub (needle : List Char) : List Char → Bool
  | [] => leadsList needle []
  | c :: rest => leadsList needle (c :: rest) || hasSub needle rest

/-! ## File-system tools (src/tools/fileSystemTools.ts)

The file system is an association list from resolved paths to file
contents.  `path.resolve` is modelled as the identity (all paths taken as
already canonical); directories and `mkdirSync` are not modelled, which is
faithful for the claims below (they only create and delete plain files). -/

/-- File-system state: resolved path to content. -/
abbrev FS := List (String × String)

/-- Content lookup in the modelled file system. -/
def fsGet : FS → String → Option String
  | [], _ => none
  | e :: rest, p => if e.1 = p then some e.2 else fsGet rest p

/-- The `fs.existsSync` check restricted to the modelled file map. -/
def fsExists (fs : FS) (p : String) : Bool := (fsGet fs p).isSome

/-- Extraction of a string-typed field from a tool input: the JS pattern
`(input.k as string)` with the falsy default `""` (used by the handlers for
`path` and `content`); a missing or non-string field yields `""`. -/
def getStrField (input : ToolInput) (k : String) : String :=
  match fieldGet input k with
  | some (.vStr s) => s
  | _ => ""

/-- The `createFile` tool handler (fileSystemTools.ts lines 319-355): fail
when the target already exists, otherwise write the content (the JS
`(input.content as string) || ""` default).  Returns the new file-system
state together with the tool output. -/
def createFileRun (fs : FS) (input : ToolInput) : FS × ToolOutput :=
  let filePath := getStrField input "path"
  let content := getStrField input "content"
  if fsExists fs filePath then
    (fs, { success := false, data := none,
           error := some ("File already exists: " ++ filePath) })
  else
    (fs ++ [(filePath, content)],
     { success := true,
       data := some (.vObj [("path", .vStr filePath), ("size", .vNum content.length)]),
       error := none })

/-- The `deleteFile` tool handler (fileSystemTools.ts lines 251-286): fail
when the target is missing, otherwise remove the entry. -/
def deleteFileRun (fs : FS) (input : ToolInput) : FS × ToolOutput :=
  let filePath := getStrField input "path"
  if !(fsExists fs filePath) then
    (fs, { success := false, data := none,
           error := some ("File does not exist: " ++ filePath) })
  else
    (fs.filter (fun e => !(e.1 == filePath)),
     { success := true,
       data := some (.vObj [("path", .vStr filePath), ("deleted", .vBool true)]),
       error := none })

/-! ## Bash tool (terminalTools.ts, `bashTool.execute`)

The subprocess spawned by `spawn("bash", ["-c", command])` is modelled by
its observable behaviour: how long it would run and what it would produce.
The `setTimeout` timer fires after `timeout * 1000` milliseconds and kills
the child with SIGTERM; the `close` handler then reports a timeout result.
If the process closes first, the timer is cleared and the close handler
reports by exit code. -/

/-- The fixed denylist `bannedCommands` of `bashTool.execute`. -/
def bannedCommands : List String :=
  ["rm -rf /", "rm -rf /*", "dd if=/dev/zero", "mkfs", "fdisk",
   "format", "shutdown", "reboot", "halt", "poweroff"]

/-- The security scan of `bashTool.execute`: the first denylisted entry that
occurs as a substring of the lower-cased command, if any. -/
def firstBanned (command : String) : Option String :=
  bannedCommands.find? (fun b => hasSub b.data (strLower command).data)

/-- Observable behaviour of the bash subprocess: how long it runs before
closing, its exit code, and its captured output streams. -/
structure ProcBehavior where
  runtimeMs : Nat
  exitCode : Int
  stdout : String
  stderr : String

/-- Resolution of the timeout parameter: `(input.timeout as number) || 120`,
so a missing (or zero, because falsy) timeout becomes 120 seconds. -/
def resolveTimeout : Option Nat → Nat
  | some t => if t = 0 then 120 else t
  | none => 120

/-- Outcome of one `bashTool.execute` call: the tool output, whether a
subprocess was spawned at all, and whether the timeout timer killed it. -/
structure BashRun where
  output : ToolOutput
  spawned : Bool
  signaled : Bool

/-- The `close` handler of `bashTool.execute` (terminalTools lines 402-423):
a killed child reports a timeout error; otherwise success is exit code 0 and
a non-zero exit code carries both the captured streams and an error message. -/
def bashCloseResult (timeout : Nat) (killed : Bool) (command cwd : String)
    (proc : ProcBehavior) : ToolOutput :=
  if killed then
    { success := false, data := none,
      error := some ("Command timed out after " ++ toString timeout ++ " seconds") }
  else
    { success := proc.exitCode == 0,
      data := some (.vObj [("stdout", .vStr proc.stdout.trim),
                           ("stderr", .vStr proc.stderr.trim),
                           ("exitCode", .vNum proc.exitCode),
                           ("command", .vStr command),
                           ("cwd", .vStr cwd)]),
      error := if proc.exitCode == 0 then none
               else some ("Command failed with exit code " ++ toString proc.exitCode) }

/-- The whole of `bashTool.execute` (terminalTools lines 348-432): resolve
the timeout, run the denylist scan (a hit fails fast, spawning nothing),
otherwise spawn the child; the timer kills it if it would run longer than
`timeout * 1000` milliseconds. -/
def bashExecute (command : String) (timeoutParam : Option Nat) (cwd : String)
    (proc : ProcBehavior) : BashRun :=
  let timeout := resolveTimeout timeoutParam
  match firstBanned command with
  | some b =>
    { output := { success := false, data := none,
                  error := some ("Command blocked for security: " ++ b) },
      spawned := false, signaled := false }
  | none =>
    let killed := timeout * 1000 < proc.runtimeMs
    { output := bashCloseResult timeout killed command cwd proc,
      spawned := true, signaled := killed }

/-! ## Search tools (src/tools/searchTools.ts) -/

/-- The `path.basename` used when scoring: the segment after the last
path separator. -/
def basename (p : String) : String :=
  match (p.splitOn "/").getLast? with
  | some s => s
  | none => p

/-- The `calculateRelevance` function (searchTools.ts lines 207-235):
exact lower-cased match scores 100, a query prefix scores 80, a query
substring scores 60, and otherwise 10 points per query character occurring
in the filename, capped at 40. -/
def calculateRelevance (filename query : String) : Nat :=
  let lf := (strLower filename).data
  let lq := (strLower query).data
  if lf = lq then 100
  else if leadsList lq lf then 80
  else if hasSub lq lf then 60
  else min (10 * lq.countP (fun c => lf.contains c)) 40

/-- One entry of the ranked `fileSearch` result list. -/
structure ScoredFile where
  path : String
  name : String
  relevance : Nat
deriving Repr

/-- Descending-relevance comparator: `a` may precede `b` exactly when the
JS comparator `(a, b) => b.relevance - a.relevance` is non-positive. -/
def relevanceGE (a b : ScoredFile) : Bool := b.relevance ≤ a.relevance

/-- The scoring map of `fileSearchTool.execute` (searchTools.ts lines
55-60): each discovered file, in glob discovery order, paired with the
relevance of its basename against the query. -/
def scoredList (files : List String) (query : String) : List ScoredFile :=
  files.map (fun f => { path := f, name := basename f,
                        relevance := calculateRelevance (basename f) query })

/-- The `.sort((a, b) => b.relevance - a.relevance)` step.  JS
`Array.prototype.sort` is specified to be stable (ES2019); it is modelled
by the stable `List.mergeSort`. -/
def sortedScored (files : List String) (query : String) : List ScoredFile :=
  (scoredList files query).mergeSort relevanceGE

/-- The ranked, truncated result list of `fileSearchTool.execute`
(searchTools.ts lines 54-62): stable descending sort, then
`.slice(0, maxResults)`. -/
def fileSearchRank (files : List String) (query : String) (maxResults : Nat) :
    List ScoredFile :=
  (sortedScored files query).take maxResults

/-- The declared parameter list of `grepSearchTool` (searchTools.ts lines
85-119); in particular `caseSensitive` is optional with declared default
`false`. -/
def grepSearchParameters : List ToolParameter :=
  [{ name := "pattern", type := .string,
     description := "Regex pattern to search for", required := true, dfault := none },
   { name := "directory", type := .string,
     description := "Directory to search in (default: current directory)",
     required := false, dfault := some (.vStr ".") },
   { name := "fileTypes", type := .array,
     description := "File extensions to include (e.g., [\".ts\", \".js\"])",
     required := false, dfault := none },
   { name := "caseSensitive", type := .boolean,
     description := "Case sensitive search", required := false,
     dfault := some (.vBool false) },
   { name := "maxResults", type := .number,
     description := "Maximum number of results to return", required := false,
     dfault := some (.vNum 50) }]

/-- The `caseSensitive` read of `grepSearchTool.execute` (searchTools.ts
line 125): `input.caseSensitive !== false`, true unless the field is
present and exactly `false`. -/
def grepCaseSensitive (input : ToolInput) : Bool :=
  match fieldGet input "caseSensitive" with
  | some (.vBool false) => false
  | _ => true

/-- The regex flag selection of `grepSearchTool.execute` (searchTools.ts
line 150): `caseSensitive ? "g" : "gi"`. -/
def regexFlags (caseSensitive : Bool) : String :=
  if caseSensitive then "g" else "gi"

/-! ## Orchestrator (AIClient.queryAIWithTools, aiClient.ts lines 88-198)

The generated text is modelled as a list of segments: free text
interleaved with well-formed fenced directive blocks.  A fenced block
carries its header form (`tool:name` or `tool name`), the tool name and the
raw payload.  The two regexes of `toolCallPatterns` are disjoint (a colon
header never matches the space pattern and conversely), so each fenced
block is matched by exactly one pattern; the `for (const pattern of
toolCallPatterns)` loop therefore yields all colon-form matches in source
order, followed by all space-form matches in source order. -/

/-- The two accepted directive header spellings. -/
inductive HeaderForm where
  | colon
  | space
deriving DecidableEq, Repr

/-- One segment of the generated text. -/
inductive Segment where
  | text (s : String)
  | fenced (form : HeaderForm) (name : String) (payload : String)
deriving DecidableEq, Repr

/-- Rendering a segment back to its concrete text. -/
def renderSegment : Segment → String
  | .text s => s
  | .fenced .colon name payload => "```tool:" ++ name ++ "\n" ++ payload ++ "\n```"
  | .fenced .space name payload => "```tool " ++ name ++ "\n" ++ payload ++ "\n```"

/-- The full generated text of a segment list. -/
def renderText (segs : List Segment) : String :=
  String.join (segs.map renderSegment)

/-- All matches of one header-form pattern, in source order: the inner
`while ((match = pattern.exec(response)) !== null)` loop for one element of
`toolCallPatterns`. -/
def matchesOfForm (f : HeaderForm) (segs : List Segment) : List (String × String) :=
  segs.filterMap (fun seg =>
    match seg with
    | .fenced f2 name payload => if f2 = f then some (name, payload) else none
    | .text _ => none)

/-- The directive sequence actually processed by `queryAIWithTools`: the
outer loop tries the colon pattern first and the space pattern second, so
all colon-form matches are processed before any space-form match. -/
def extractToolCalls (segs : List Segment) : List (String × String) :=
  matchesOfForm .colon segs ++ matchesOfForm .space segs

/-- The directive sequence in the order the opening fences appear in the
text, regardless of header form (the order asserted by the specification). -/
def fenceOrderCalls (segs : List Segment) : List (String × String) :=
  segs.filterMap (fun seg =>
    match seg with
    | .fenced _ name payload => some (name, payload)
    | .text _ => none)

/-- Prefix test scanning for one of the heuristic nouns from the current
position, giving up at a newline (JS `.` does not match newlines, so the
`.*` gap of the heuristic regexes must stay within one line). -/
def scanNoun (nouns : List (List Char)) : List Char → Bool
  | [] => nouns.any (fun n => leadsList n [])
  | c :: rest =>
    nouns.any (fun n => leadsList n (c :: rest)) ||
    (!(c == '\n') && scanNoun nouns rest)

/-- Scan for a heuristic verb followed (without an intervening newline) by a
heuristic noun, anywhere in the text: one `/(?:v1|v2).*(?:n1|n2)/i.test`. -/
def scanVerbNoun (verbs nouns : List (List Char)) : List Char → Bool
  | [] => verbs.any (fun v => leadsList v [] && scanNoun nouns (List.drop v.length []))
  | c :: rest =>
    verbs.any (fun v => leadsList v (c :: rest) && scanNoun nouns (List.drop v.length (c :: rest))) ||
    scanVerbNoun verbs nouns rest

/-- One heuristic verb/noun pattern applied case-insensitively to the text. -/
def verbNounHit (verbs nouns : List String) (s : String) : Bool :=
  scanVerbNoun (verbs.map String.data) (nouns.map String.data) (strLower s).data

/-- The `shouldUseTools` heuristic of `queryAIWithTools` (aiClient.ts lines
174-179): five verb/noun regexes over the response, any hit counts. -/
def shouldUseTools (s : String) : Bool :=
  verbNounHit ["create", "write", "make"] ["file", "document"] s ||
  verbNounHit ["list", "show"] ["directory", "folder", "files"] s ||
  verbNounHit ["read", "open", "show"] ["file"] s ||
  verbNounHit ["search", "find"] ["file", "code"] s ||
  verbNounHit ["run", "execute"] ["command", "bash"] s

/-- The tail of `queryAIWithTools` (aiClient.ts lines 88-198), with the
per-directive decode/execute/render pipeline abstracted as `execOne` (it
depends on the registry and the JSON decoder, which the order and
no-directive claims do not): collect the directives pattern-by-pattern,
process each in that order, run the advisory heuristic only when no
directive matched, and append the joined renderings when any directive was
processed.  Returns the final response text and whether the advisory was
emitted. -/
def queryAIWithToolsModel (execOne : String × String → String)
    (segs : List Segment) : String × Bool :=
  let response := renderText segs
  let calls := extractToolCalls segs
  let toolResults := calls.map execOne
  let advisory := calls.isEmpty && shouldUseTools response
  let response2 :=
    if toolResults.isEmpty then response
    else response ++ "\n\n---\n**🔧 Tool Execution Results:**\n"
           ++ String.intercalate "\n\n" toolResults
  (response2, advisory)

/-! ## Helper lemmas -/

/-- A list is a prefix of itself. -/
theorem leadsList_self (l : List Char) : leadsList l l = true := by
  induction l with
  | nil => rfl
  | cons a as ih => simp [leadsList, ih]

/-- A prefix is in particular a substring. -/
theorem hasSub_of_leadsList (n h : List Char) (hp : leadsList n h = true) :
    hasSub n h = true := by
  cases h with
  | nil => exact hp
  | cons c rest => simp [hasSub, hp]

/-- Looking up a freshly appended file finds its content. -/
theorem fsGet_append_self (fs : FS) (p c : String) (h : fsGet fs p = none) :
    fsGet (fs ++ [(p, c)]) p = some c := by
  induction fs with
  | nil => simp [fsGet]
  | cons e rest ih =>
    by_cases he : e.1 = p
    · simp [fsGet, he] at h
    · simp only [fsGet, he, if_false, List.cons_append] at h ⊢
      simp [fsGet, he]
      exact ih h

/-! ## C10: grepSearch caseSensitive default is declared but ignored -/

/-- C10: when the `caseSensitive` parameter is omitted from a `grepSearch`
invocation, the search is case-sensitive (the regex is compiled with flags
`"g"`, without the case-insensitive flag), although the declared default
value of the `caseSensitive` parameter is `false`. -/
theorem grep_caseSensitive_omitted_sensitive (input : ToolInput)
    (h : fieldGet input "caseSensitive" = none) :
    grepCaseSensitive input = true ∧
    regexFlags (grepCaseSensitive input) = "g" ∧
    ∃ p ∈ grepSearchParameters, p.name = "caseSensitive" ∧ p.required = false ∧
      p.dfault = some (Value.vBool false) := by
  have h1 : grepCaseSensitive input = true := by
    unfold grepCaseSensitive
    rw [h]
  refine ⟨h1, by rw [h1]; rfl, ?_⟩
  refine ⟨{ name := "caseSensitive", type := .boolean,
            description := "Case sensitive search", required := false,
            dfault := some (.vBool false) }, ?_, rfl, rfl, rfl⟩
  simp [grepSearchParameters]

/-- Witness for C10 at the empty input object. -/
theorem grep_caseSensitive_omitted_sensitive_witness :
    grepCaseSensitive [] = true ∧
    regexFlags (grepCaseSensitive []) = "g" ∧
    ∃ p ∈ grepSearchParameters, p.name = "caseSensitive" ∧ p.required = false ∧
      p.dfault = some (Value.vBool false) :=
  grep_caseSensitive_omitted_sensitive [] rfl

/-! ## C7: text with no directive blocks is returned unchanged -/

/-- C7: when the generated text contains zero well-formed directive blocks,
the orchestrator returns the text unchanged, and the advisory is emitted
exactly when the heuristic verb/noun scan matches the text. -/
theorem orchestrator_no_directives_unchanged (execOne : String × String → String)
    (segs : List Segment) (h : extractToolCalls segs = []) :
    (queryAIWithToolsModel execOne segs).1 = renderText segs ∧
    (queryAIWithToolsModel execOne segs).2 = shouldUseTools (renderText segs) := by
  simp [queryAIWithToolsModel, h]

/-- Witness for C7 on a pure-prose response. -/
theorem orchestrator_no_directives_unchanged_witness :
    (queryAIWithToolsModel (fun _ => "") [Segment.text "hello"]).1 =
      renderText [Segment.text "hello"] ∧
    (queryAIWithToolsModel (fun _ => "") [Segment.text "hello"]).2 =
      shouldUseTools (renderText [Segment.text "hello"]) :=
  orchestrator_no_directives_unchanged (fun _ => "") [Segment.text "hello"] rfl

/-! ## C2: directive execution order across the two header forms -/

/-- C2 counterexample: with a space-form block before a colon-form block,
the orchestrator processes the colon-form directive first, not the
directives in the order their opening fences appear in the text. -/
theorem extract_order_counterexample :
    extractToolCalls
        [Segment.fenced .space "alpha" "argsA", Segment.fenced .colon "beta" "argsB"] =
      [("beta", "argsB"), ("alpha", "argsA")] ∧
    fenceOrderCalls
        [Segment.fenced .space "alpha" "argsA", Segment.fenced .colon "beta" "argsB"] =
      [("alpha", "argsA"), ("beta", "argsB")] ∧
    ([("beta", "argsB"), ("alpha", "argsA")] : List (String × String)) ≠
      [("alpha", "argsA"), ("beta", "argsB")] :=
  ⟨rfl, rfl, by decide⟩

/-- All directives of one form are extracted in fence-appearance order. -/
theorem matchesOfForm_all (f : HeaderForm) (segs : List Segment)
    (h : ∀ f2 n p, Segment.fenced f2 n p ∈ segs → f2 = f) :
    matchesOfForm f segs = fenceOrderCalls segs := by
  induction segs with
  | nil => rfl
  | cons s rest ih =>
    have hrest : ∀ f2 n p, Segment.fenced f2 n p ∈ rest → f2 = f :=
      fun f2 n p hm => h f2 n p (List.mem_cons_of_mem _ hm)
    cases s with
    | text t => simpa [matchesOfForm, fenceOrderCalls] using ih hrest
    | fenced f2 n p =>
      have hf : f2 = f := h f2 n p (List.mem_cons_self _ _)
      subst hf
      simpa [matchesOfForm, fenceOrderCalls] using ih hrest

/-- A form with no block in the text yields no match. -/
theorem matchesOfForm_none (f g : HeaderForm) (hfg : f ≠ g) (segs : List Segment)
    (h : ∀ f2 n p, Segment.fenced f2 n p ∈ segs → f2 = g) :
    matchesOfForm f segs = [] := by
  induction segs with
  | nil => rfl
  | cons s rest ih =>
    have hrest : ∀ f2 n p, Segment.fenced f2 n p ∈ rest → f2 = g :=
      fun f2 n p hm => h f2 n p (List.mem_cons_of_mem _ hm)
    cases s with
    | text t => simpa [matchesOfForm] using ih hrest
    | fenced f2 n p =>
      have hf : f2 = g := h f2 n p (List.mem_cons_self _ _)
      have hne : ¬ (f2 = f) := by rw [hf]; exact fun hh => hfg hh.symm
      simpa [matchesOfForm, hne] using ih hrest

/-- C2 amended: directives are processed grouped by header form (all
colon-form matches in source order, then all space-form matches in source
order); consequently, when every directive block in the text uses one and
the same header form, the processing order coincides with the order the
opening fences appear in the text. -/
theorem extract_order_grouped_by_form (fm : HeaderForm) (segs : List Segment)
    (h : ∀ f n p, Segment.fenced f n p ∈ segs → f = fm) :
    extractToolCalls segs = fenceOrderCalls segs := by
  cases fm with
  | colon =>
    unfold extractToolCalls
    rw [matchesOfForm_all .colon segs h,
        matchesOfForm_none .space .colon (by decide) segs h, List.append_nil]
  | space =>
    unfold extractToolCalls
    rw [matchesOfForm_all .space segs h,
        matchesOfForm_none .colon .space (by decide) segs h, List.nil_append]

/-- Witness for C2 amended: two colon-form blocks are processed in fence
order. -/
theorem extract_order_grouped_by_form_witness :
    extractToolCalls [Segment.fenced .colon "a" "x", Segment.fenced .colon "b" "y"] =
      fenceOrderCalls [Segment.fenced .colon "a" "x", Segment.fenced .colon "b" "y"] :=
  extract_order_grouped_by_form .colon _ (by
    intro f n p hm
    simp only [List.mem_cons, List.not_mem_nil, or_false, Segment.fenced.injEq] at hm
    rcases hm with ⟨hf, _, _⟩ | ⟨hf, _, _⟩ <;> exact hf)

/-! ## C8: createFile run twice on the same path -/

/-- Concrete tool input for a `createFile` call. -/
def createInput (p c : String) : ToolInput :=
  [("path", Value.vStr p), ("content", Value.vStr c)]

/-- C8: on a fresh path, the first `createFile` call succeeds and writes the
content; a second call on the same path fails with the already-exists
execution error and leaves the file system (hence the written content)
unchanged. -/
theorem createFile_twice_semantics (fs : FS) (p c c2 : String)
    (h : fsGet fs p = none) :
    (createFileRun fs (createInput p c)).2.success = true ∧
    fsGet (createFileRun fs (createInput p c)).1 p = some c ∧
    (createFileRun (createFileRun fs (createInput p c)).1 (createInput p c2)).2 =
      { success := false, data := none,
        error := some ("File already exists: " ++ p) } ∧
    (createFileRun (createFileRun fs (createInput p c)).1 (createInput p c2)).1 =
      (createFileRun fs (createInput p c)).1 := by
  have hpath : getStrField (createInput p c) "path" = p := by
    simp [getStrField, createInput, fieldGet]
  have hcontent : getStrField (createInput p c) "content" = c := by
    simp [getStrField, createInput, fieldGet]
  have hpath2 : getStrField (createInput p c2) "path" = p := by
    simp [getStrField, createInput, fieldGet]
  have hex : fsExists fs p = false := by simp [fsExists, h]
  have hfirst : (createFileRun fs (createInput p c)).1 = fs ++ [(p, c)] := by
    simp [createFileRun, hpath, hcontent, hex]
  have hget2 : fsGet (fs ++ [(p, c)]) p = some c := fsGet_append_self fs p c h
  have hex2 : fsExists (fs ++ [(p, c)]) p = true := by simp [fsExists, hget2]
  refine ⟨by simp [createFileRun, hpath, hcontent, hex], ?_, ?_, ?_⟩
  · rw [hfirst]; exact hget2
  · rw [hfirst]; simp [createFileRun, hpath2, hex2]
  · rw [hfirst]; simp [createFileRun, hpath2, hex2]

/-- Witness for C8 on an empty file system. -/
theorem createFile_twice_semantics_witness :
    (createFileRun [] (createInput "a.txt" "hi")).2.success = true ∧
    fsGet (createFileRun [] (createInput "a.txt" "hi")).1 "a.txt" = some "hi" ∧
    (createFileRun (createFileRun [] (createInput "a.txt" "hi")).1
        (createInput "a.txt" "bye")).2 =
      { success := false, data := none,
        error := some ("File already exists: " ++ "a.txt") } ∧
    (createFileRun (createFileRun [] (createInput "a.txt" "hi")).1
        (createInput "a.txt" "bye")).1 =
      (createFileRun [] (createInput "a.txt" "hi")).1 :=
  createFile_twice_semantics [] "a.txt" "hi" "bye" rfl

/-! ## C1: the bash denylist blocks without spawning -/

/-- C1: a command containing a denylisted substring (case-insensitively)
makes `bash` fail with the security error without spawning a subprocess; a
command containing none of the denylisted substrings passes the check and a
subprocess is spawned. -/
theorem bash_denylist_blocks_and_spawns (cmd cwd : String) (t : Option Nat)
    (proc : ProcBehavior) :
    ((∃ b ∈ bannedCommands, hasSub b.data (strLower cmd).data = true) →
      (bashExecute cmd t cwd proc).spawned = false ∧
      (bashExecute cmd t cwd proc).output.success = false ∧
      (∃ b ∈ bannedCommands,
        (bashExecute cmd t cwd proc).output.error =
          some ("Command blocked for security: " ++ b))) ∧
    ((∀ b ∈ bannedCommands, hasSub b.data (strLower cmd).data = false) →
      (bashExecute cmd t cwd proc).spawned = true) := by
  constructor
  · rintro ⟨b, hb, hsub⟩
    have hsome : (firstBanned cmd).isSome := by
      unfold firstBanned
      exact List.find?_isSome.mpr ⟨b, hb, hsub⟩
    obtain ⟨b2, hb2⟩ := Option.isSome_iff_exists.mp hsome
    have hmem : b2 ∈ bannedCommands := List.mem_of_find?_eq_some hb2
    exact ⟨by simp [bashExecute, hb2], by simp [bashExecute, hb2],
           ⟨b2, hmem, by simp [bashExecute, hb2]⟩⟩
  · intro hall
    have hnone : firstBanned cmd = none := by
      unfold firstBanned
      exact List.find?_eq_none.mpr (fun b hb => by simp [hall b hb])
    simp [bashExecute, hnone]

/-- Witness for C1: an upper-cased recursive root deletion is blocked, a
harmless echo is spawned. -/
theorem bash_denylist_blocks_and_spawns_witness :
    (bashExecute "sudo RM -rf / " none "/" ⟨5, 0, "", ""⟩).spawned = false ∧
    (bashExecute "echo hello" none "/" ⟨5, 0, "", ""⟩).spawned = true :=
  ⟨((bash_denylist_blocks_and_spawns "sudo RM -rf / " "/" none ⟨5, 0, "", ""⟩).1
      (by decide)).1,
   (bash_denylist_blocks_and_spawns "echo hello" "/" none ⟨5, 0, "", ""⟩).2
      (by decide)⟩

/-! ## C5: result payload/error exclusivity -/

/-- C5 counterexample: the bash close handler on a non-zero exit code
produces a result carrying both a structured data payload and an error
message at once, refuting the claimed exclusivity of payload and error. -/
theorem bash_failure_carries_data_and_error :
    ((bashExecute "ls /missing" none "/" ⟨50, 1, "", "No such file"⟩).output.data).isSome
      = true ∧
    ((bashExecute "ls /missing" none "/" ⟨50, 1, "", "No such file"⟩).output.error).isSome
      = true ∧
    (bashExecute "ls /missing" none "/" ⟨50, 1, "", "No such file"⟩).output.success
      = false :=
  ⟨rfl, rfl, rfl⟩

/-- C5 amended: every result produced by the modelled operations has
`success = false` whenever the error message is set, and no error message
when `success = true`; the direction "no result carries both a payload and
an error" fails (see the counterexample), because a failed bash execution
keeps its diagnostic payload alongside the error. -/
theorem error_implies_failure_invariant :
    (∀ cmd t cwd proc,
      (((bashExecute cmd t cwd proc).output.error).isSome = true →
        (bashExecute cmd t cwd proc).output.success = false) ∧
      ((bashExecute cmd t cwd proc).output.success = true →
        (bashExecute cmd t cwd proc).output.error = none)) ∧
    (∀ fs input,
      (((createFileRun fs input).2.error).isSome = true →
        (createFileRun fs input).2.success = false) ∧
      ((createFileRun fs input).2.success = true →
        (createFileRun fs input).2.error = none)) ∧
    (∀ fs input,
      (((deleteFileRun fs input).2.error).isSome = true →
        (deleteFileRun fs input).2.success = false) ∧
      ((deleteFileRun fs input).2.success = true →
        (deleteFileRun fs input).2.error = none)) := by
  refine ⟨fun cmd t cwd proc => ?_, fun fs input => ?_, fun fs input => ?_⟩
  · cases hfb : firstBanned cmd with
    | some b => simp [bashExecute, hfb]
    | none =>
      by_cases hk : resolveTimeout t * 1000 < proc.runtimeMs
      · simp [bashExecute, hfb, bashCloseResult, hk]
      · cases hc : proc.exitCode == 0 with
        | true => simp [bashExecute, hfb, bashCloseResult, hk, hc]
        | false => simp [bashExecute, hfb, bashCloseResult, hk, hc]
  · by_cases he : fsExists fs (getStrField input "path") <;> simp [createFileRun, he]
  · by_cases he : fsExists fs (getStrField input "path") <;> simp [deleteFileRun, he]

/-- Witness for C5 amended: a non-zero exit reports failure. -/
theorem error_implies_failure_invariant_witness :
    (bashExecute "ls /missing" (some 1) "/" ⟨50, 2, "", ""⟩).output.success = false :=
  (error_implies_failure_invariant.1 "ls /missing" (some 1) "/" ⟨50, 2, "", ""⟩).1 rfl

/-! ## C6: timeout kills the subprocess and reports a distinct error -/

/-- The timeout message never coincides with the generic non-zero-exit
failure message, whatever the numbers embedded in them. -/
theorem timeout_msg_ne_fail_msg (s r : String) :
    "Command timed out after " ++ s ++ " seconds" ≠
      "Command failed with exit code " ++ r := by
  intro h
  have hd := congrArg (fun u : String => u.data[8]?) h
  simp only [String.data_append] at hd
  rw [List.append_assoc] at hd
  rw [List.getElem?_append_left (by decide),
      List.getElem?_append_left (by decide)] at hd
  exact absurd hd (by decide)

/-- C6: a safe command whose subprocess would run longer than the resolved
timeout is killed (SIGTERM) and the result is the timeout failure, distinct
from every generic exit-code failure message. -/
theorem bash_timeout_signals_and_reports (cmd cwd : String) (t : Option Nat)
    (proc : ProcBehavior) (hsafe : firstBanned cmd = none)
    (hlong : resolveTimeout t * 1000 < proc.runtimeMs) :
    (bashExecute cmd t cwd proc).signaled = true ∧
    (bashExecute cmd t cwd proc).spawned = true ∧
    (bashExecute cmd t cwd proc).output =
      { success := false, data := none,
        error := some ("Command timed out after " ++ toString (resolveTimeout t)
          ++ " seconds") } ∧
    ∀ code : Int,
      (bashExecute cmd t cwd proc).output.error ≠
        some ("Command failed with exit code " ++ toString code) := by
  have herr : (bashExecute cmd t cwd proc).output =
      { success := false, data := none,
        error := some ("Command timed out after " ++ toString (resolveTimeout t)
          ++ " seconds") } := by
    simp [bashExecute, hsafe, bashCloseResult, hlong]
  refine ⟨by simp [bashExecute, hsafe, hlong], by simp [bashExecute, hsafe], herr, ?_⟩
  intro code h
  rw [herr] at h
  exact timeout_msg_ne_fail_msg (toString (resolveTimeout t)) (toString code)
    (Option.some.inj h)

/-- Witness for C6: a one-second timeout against a five-second sleep. -/
theorem bash_timeout_signals_and_reports_witness :
    (bashExecute "sleep 300" (some 1) "/" ⟨5000, 0, "", ""⟩).signaled = true ∧
    (bashExecute "sleep 300" (some 1) "/" ⟨5000, 0, "", ""⟩).spawned = true :=
  ⟨(bash_timeout_signals_and_reports "sleep 300" "/" (some 1) ⟨5000, 0, "", ""⟩
      (by decide) (by decide)).1,
   (bash_timeout_signals_and_reports "sleep 300" "/" (some 1) ⟨5000, 0, "", ""⟩
      (by decide) (by decide)).2.1⟩

/-! ## C3: register on a duplicate name -/

/-- A first version of a tool named `alpha`. -/
def toolA1 : Tool :=
  { name := "alpha", description := "first version", parameters := [],
    execute := fun _ => { success := true, data := none, error := none } }

/-- A second, different version of a tool named `alpha`. -/
def toolA2 : Tool :=
  { name := "alpha", description := "second version", parameters := [],
    execute := fun _ => { success := true, data := none, error := none } }

/-- A registry already holding the first version of `alpha`. -/
def regWithA1 : RegistryState := { tools := [("alpha", toolA1)] }

/-- C3 counterexample: registering a second descriptor with an already
registered name does not fail and does not leave the registry unchanged:
`register` silently replaces the existing descriptor. -/
theorem register_overwrite_counterexample :
    registerTool regWithA1 toolA2 = { tools := [("alpha", toolA2)] } ∧
    registerTool regWithA1 toolA2 ≠ regWithA1 ∧
    mapGet (registerTool regWithA1 toolA2).tools "alpha" = some toolA2 := by
  refine ⟨rfl, ?_, rfl⟩
  intro hEq
  have hl : [("alpha", toolA2)] = [("alpha", toolA1)] := by
    have := congrArg RegistryState.tools hEq
    simpa [registerTool, regWithA1, mapSet, toolA2] using this
  have hp : ("alpha", toolA2) = ("alpha", toolA1) := by injection hl
  have ht : toolA2 = toolA1 := congrArg Prod.snd hp
  have hd := congrArg Tool.description ht
  simp [toolA1, toolA2] at hd

/-- Keys after a `Map.set`: unchanged when the key already exists, the key
appended otherwise. -/
theorem mapSet_keys (l : List (String × Tool)) (k : String) (t : Tool) :
    (mapSet l k t).map Prod.fst =
      if (l.map Prod.fst).contains k then l.map Prod.fst
      else l.map Prod.fst ++ [k] := by
  induction l with
  | nil => simp [mapSet]
  | cons e rest ih =>
    by_cases he : e.1 = k
    · simp [mapSet, he, List.contains_cons]
    · have hbeq : (k == e.1) = false := by
        simp only [beq_eq_false_iff_ne, ne_eq]
        exact fun hh => he hh.symm
      simp only [mapSet, he, if_false, List.map_cons, List.contains_cons, hbeq,
        Bool.false_or, ih]
      exact apply_ite (fun l => e.1 :: l) _ _ _

/-- A `Map.set` preserves distinctness of the keys. -/
theorem mapSet_nodup (l : List (String × Tool)) (k : String) (t : Tool)
    (h : (l.map Prod.fst).Nodup) : ((mapSet l k t).map Prod.fst).Nodup := by
  rw [mapSet_keys]
  by_cases hc : (l.map Prod.fst).contains k
  · rw [if_pos hc]; exact h
  · rw [if_neg hc]
    have hk : k ∉ l.map Prod.fst := by
      intro hm
      exact absurd (List.elem_eq_true_of_mem hm) (by simpa [List.contains] using hc)
    simp [List.nodup_append, h, hk]

/-- After a `Map.set`, looking up the written key returns the new value. -/
theorem mapGet_mapSet_self (l : List (String × Tool)) (k : String) (t : Tool) :
    mapGet (mapSet l k t) k = some t := by
  induction l with
  | nil => simp [mapSet, mapGet]
  | cons e rest ih =>
    by_cases he : e.1 = k
    · simp [mapSet, he, mapGet]
    · simp [mapSet, he, mapGet, ih]

/-- After a `Map.set`, every other key is untouched. -/
theorem mapGet_mapSet_other (l : List (String × Tool)) (k : String) (t : Tool)
    (k2 : String) (hk : k2 ≠ k) : mapGet (mapSet l k t) k2 = mapGet l k2 := by
  induction l with
  | nil =>
    have h1 : ¬ (k = k2) := fun hh => hk hh.symm
    simp [mapSet, mapGet, h1]
  | cons e rest ih =>
    by_cases he : e.1 = k
    · have h1 : ¬ (k = k2) := fun hh => hk hh.symm
      have h2 : ¬ (e.1 = k2) := by rw [he]; exact h1
      simp [mapSet, he, mapGet, h1, h2]
    · rw [show mapSet (e :: rest) k t = e :: mapSet rest k t from by simp [mapSet, he]]
      by_cases he2 : e.1 = k2
      · simp [mapGet, he2]
      · simp [mapGet, he2, ih]

/-- C3 amended: `register` never fails; registering a descriptor whose name
is already present silently replaces the existing descriptor in place (the
key sequence is unchanged), otherwise it appends the new name; in both
cases key distinctness is preserved, the registered name maps to the new
descriptor, and every other name is untouched. -/
theorem register_overwrite_semantics (r : RegistryState) (t : Tool)
    (h : (r.tools.map Prod.fst).Nodup) :
    ((registerTool r t).tools.map Prod.fst =
      if (r.tools.map Prod.fst).contains t.name then r.tools.map Prod.fst
      else r.tools.map Prod.fst ++ [t.name]) ∧
    ((registerTool r t).tools.map Prod.fst).Nodup ∧
    mapGet (registerTool r t).tools t.name = some t ∧
    (∀ k, k ≠ t.name → mapGet (registerTool r t).tools k = mapGet r.tools k) :=
  ⟨mapSet_keys r.tools t.name t, mapSet_nodup r.tools t.name t h,
   mapGet_mapSet_self r.tools t.name t,
   fun k hk => mapGet_mapSet_other r.tools t.name t k hk⟩

/-- Witness for C3 amended at the concrete one-entry registry. -/
theorem register_overwrite_semantics_witness :
    mapGet (registerTool regWithA1 toolA2).tools toolA2.name = some toolA2 ∧
    ((registerTool regWithA1 toolA2).tools.map Prod.fst).Nodup :=
  ⟨(register_overwrite_semantics regWithA1 toolA2 (by simp [regWithA1])).2.2.1,
   (register_overwrite_semantics regWithA1 toolA2 (by simp [regWithA1])).2.1⟩

/-! ## C4: registry validation and (the absence of) default merging -/

/-- Validation fails exactly when some required parameter is absent or some
supplied declared parameter has the wrong runtime kind. -/
theorem validateInput_isSome_iff (params : List ToolParameter) (input : ToolInput) :
    (validateInput params input).isSome ↔
      ∃ p ∈ params,
        (p.required = true ∧ fieldGet input p.name = none) ∨
        (∃ v, fieldGet input p.name = some v ∧ validateParameterType v p.type = false) := by
  induction params with
  | nil => simp [validateInput]
  | cons p ps ih =>
    cases hget : fieldGet input p.name with
    | none =>
      cases hreq : p.required with
      | true =>
        have hval : validateInput (p :: ps) input =
            some ("Required parameter " ++ quoted p.name ++ " is missing") := by
          simp [validateInput, hget, hreq]
        rw [hval]
        exact iff_of_true rfl ⟨p, List.mem_cons_self _ _, Or.inl ⟨hreq, hget⟩⟩
      | false =>
        have hval : validateInput (p :: ps) input = validateInput ps input := by
          simp [validateInput, hget, hreq]
        rw [hval, ih]
        constructor
        · rintro ⟨q, hq, hcond⟩
          exact ⟨q, List.mem_cons_of_mem _ hq, hcond⟩
        · rintro ⟨q, hq, hcond⟩
          rcases List.mem_cons.mp hq with hq2 | hq2
          · subst hq2
            rcases hcond with ⟨hqr, _⟩ | ⟨v, hv, _⟩
            · rw [hreq] at hqr; simp at hqr
            · rw [hget] at hv; exact Option.noConfusion hv
          · exact ⟨q, hq2, hcond⟩
    | some v =>
      cases hok : validateParameterType v p.type with
      | true =>
        have hval : validateInput (p :: ps) input = validateInput ps input := by
          simp [validateInput, hget, hok]
        rw [hval, ih]
        constructor
        · rintro ⟨q, hq, hcond⟩
          exact ⟨q, List.mem_cons_of_mem _ hq, hcond⟩
        · rintro ⟨q, hq, hcond⟩
          rcases List.mem_cons.mp hq with hq2 | hq2
          · subst hq2
            rcases hcond with ⟨_, hnone⟩ | ⟨v2, hv2, hbad⟩
            · rw [hget] at hnone; exact Option.noConfusion hnone
            · rw [hget] at hv2
              have hv3 : v = v2 := Option.some.inj hv2
              rw [← hv3, hok] at hbad
              simp at hbad
          · exact ⟨q, hq2, hcond⟩
      | false =>
        have hval : validateInput (p :: ps) input =
            some ("Parameter " ++ quoted p.name ++ " has invalid type. Expected "
              ++ paramTypeName p.type ++ ", got " ++ jsTypeof v) := by
          simp [validateInput, hget, hok]
        rw [hval]
        exact iff_of_true rfl ⟨p, List.mem_cons_self _ _, Or.inr ⟨v, hget, hok⟩⟩

/-- A tool whose handler echoes its raw input back as the result payload,
with one optional parameter that declares a default value. -/
def echoTool : Tool :=
  { name := "echo", description := "echoes its raw input back",
    parameters := [{ name := "p", type := .string,
                     description := "optional parameter with a declared default",
                     required := false, dfault := some (.vStr "d") }],
    execute := fun input => { success := true, data := some (.vObj input), error := none } }

/-- A registry holding only the echo tool. -/
def regEcho : RegistryState := { tools := [("echo", echoTool)] }

/-- C4 counterexample: calling the echo tool with the optional parameter
omitted invokes the handler with the raw (empty) input — the declared
default `"d"` is not merged in, so the handler does not see the default. -/
theorem execute_no_default_merge_counterexample :
    registryExecute regEcho { tool := "echo", input := [] } =
      { success := true, data := some (Value.vObj []), error := none } ∧
    some (Value.vObj []) ≠ some (Value.vObj [("p", Value.vStr "d")]) := by
  refine ⟨rfl, ?_⟩
  intro h
  simp at h

/-- C4 amended: for a registered tool, `Registry.execute` rejects the call
with a validation error exactly when some required parameter is absent or
some supplied declared parameter has the wrong runtime kind; when
validation passes, the handler is invoked with the raw input unchanged
(declared defaults are not merged in for omitted optional parameters). -/
theorem execute_validation_semantics (r : RegistryState) (tool : Tool)
    (call : ToolCall) (hget : mapGet r.tools call.tool = some tool) :
    ((validateInput tool.parameters call.input).isSome ↔
      ∃ p ∈ tool.parameters,
        (p.required = true ∧ fieldGet call.input p.name = none) ∨
        (∃ v, fieldGet call.input p.name = some v ∧
          validateParameterType v p.type = false)) ∧
    (∀ msg, validateInput tool.parameters call.input = some msg →
      registryExecute r call =
        { success := false, data := none,
          error := some ("Invalid input for tool " ++ quoted call.tool ++ ": " ++ msg) }) ∧
    (validateInput tool.parameters call.input = none →
      registryExecute r call = tool.execute call.input) := by
  refine ⟨validateInput_isSome_iff tool.parameters call.input, ?_, ?_⟩
  · intro msg hmsg
    simp [registryExecute, hget, hmsg]
  · intro hnone
    simp [registryExecute, hget, hnone]

/-- Witness for C4 amended: the echo call with the optional parameter left
out passes validation and reaches the handler with the raw input. -/
theorem execute_validation_semantics_witness :
    registryExecute regEcho { tool := "echo", input := [] } = echoTool.execute [] :=
  (execute_validation_semantics regEcho echoTool { tool := "echo", input := [] }
    rfl).2.2 rfl

/-! ## C9: fileSearch relevance tiers and ranking order -/

/-- The descending comparator is transitive. -/
theorem relevanceGE_trans (a b c : ScoredFile)
    (hab : relevanceGE a b) (hbc : relevanceGE b c) : relevanceGE a c := by
  simp only [relevanceGE, decide_eq_true_eq] at *
  exact Nat.le_trans hbc hab

/-- The descending comparator is total. -/
theorem relevanceGE_total (a b : ScoredFile) : relevanceGE a b || relevanceGE b a := by
  simp only [relevanceGE, Bool.or_eq_true, decide_eq_true_eq]
  exact (Nat.le_total b.relevance a.relevance).elim Or.inl Or.inr

/-- Lists all of whose entries share one relevance value are pairwise
ordered under the descending comparator. -/
theorem pairwise_relevanceGE_of_const (r : Nat) :
    ∀ (m : List ScoredFile), (∀ x ∈ m, x.relevance = r) →
      m.Pairwise (fun a b => relevanceGE a b = true)
  | [], _ => List.Pairwise.nil
  | x :: xs, h => by
    refine List.Pairwise.cons ?_ (pairwise_relevanceGE_of_const r xs ?_)
    · intro y hy
      simp only [relevanceGE, decide_eq_true_eq]
      rw [h x (List.mem_cons_self _ _), h y (List.mem_cons_of_mem _ hy)]
    · exact fun y hy => h y (List.mem_cons_of_mem _ hy)

/-- The sorted result list is descending in relevance. -/
theorem sortedScored_pairwise (files : List String) (query : String) :
    (sortedScored files query).Pairwise (fun a b => b.relevance ≤ a.relevance) := by
  have h := @List.sorted_mergeSort ScoredFile relevanceGE
    (fun a b c hab hbc => relevanceGE_trans a b c hab hbc)
    (fun a b => relevanceGE_total a b)
    (scoredList files query)
  exact h.imp (fun hab => by simpa [relevanceGE, decide_eq_true_eq] using hab)

/-- Stability of the ranking: within one relevance tier the sorted order is
the first-discovered order. -/
theorem sortedScored_stable (files : List String) (query : String) (r : Nat) :
    (sortedScored files query).filter (fun f => f.relevance == r) =
      (scoredList files query).filter (fun f => f.relevance == r) := by
  set l := scoredList files query with hl
  set p : ScoredFile → Bool := fun f => f.relevance == r with hp
  have hpw : (l.filter p).Pairwise (fun a b => relevanceGE a b = true) := by
    refine pairwise_relevanceGE_of_const r (l.filter p) ?_
    intro x hx
    have := (List.mem_filter.mp hx).2
    simpa [hp] using this
  have h1 : List.Sublist (l.filter p) (l.mergeSort relevanceGE) :=
    List.sublist_mergeSort
      (fun a b c hab hbc => relevanceGE_trans a b c hab hbc)
      (fun a b => relevanceGE_total a b) hpw (List.filter_sublist l)
  have h2 : List.Sublist ((l.filter p).filter p) ((l.mergeSort relevanceGE).filter p) :=
    h1.filter p
  have h3 : (l.filter p).filter p = l.filter p := by
    simp [List.filter_filter]
  rw [h3] at h2
  have h4 : List.Perm ((l.mergeSort relevanceGE).filter p) (l.filter p) :=
    (List.mergeSort_perm l relevanceGE).filter p
  have h5 : (l.filter p).length = ((l.mergeSort relevanceGE).filter p).length :=
    (h4.length_eq).symm
  have h6 : l.filter p = (l.mergeSort relevanceGE).filter p :=
    h2.eq_of_length h5
  exact h6.symm

/-- C9: `calculateRelevance` scores in four strictly ordered fixed tiers
(exact basename match 100, prefix match 80, substring match 60,
character-overlap fallback at most 40), and the ranked result list is
descending in score with ties kept in first-discovered order. -/
theorem fileSearch_relevance_tiers_and_order :
    (∀ filename query : String,
      ((strLower filename).data = (strLower query).data →
        calculateRelevance filename query = 100) ∧
      ((strLower filename).data ≠ (strLower query).data →
        leadsList (strLower query).data (strLower filename).data = true →
        calculateRelevance filename query = 80) ∧
      (leadsList (strLower query).data (strLower filename).data = false →
        hasSub (strLower query).data (strLower filename).data = true →
        calculateRelevance filename query = 60) ∧
      (hasSub (strLower query).data (strLower filename).data = false →
        calculateRelevance filename query ≤ 40)) ∧
    (∀ files query maxResults,
      (fileSearchRank files query maxResults).Pairwise
        (fun a b => b.relevance ≤ a.relevance)) ∧
    (∀ files query r,
      (sortedScored files query).filter (fun f => f.relevance == r) =
        (scoredList files query).filter (fun f => f.relevance == r)) := by
  refine ⟨fun filename query => ⟨?_, ?_, ?_, ?_⟩,
          fun files query maxResults => ?_,
          fun files query r => sortedScored_stable files query r⟩
  · intro heq
    simp [calculateRelevance, heq]
  · intro hne hpre
    simp [calculateRelevance, hne, hpre]
  · intro hpre hsub
    have hne : (strLower filename).data ≠ (strLower query).data := by
      intro heq
      rw [heq] at hpre
      rw [leadsList_self] at hpre
      exact Bool.noConfusion hpre
    simp [calculateRelevance, hne, hpre, hsub]
  · intro hsub
    have hpre : leadsList (strLower query).data (strLower filename).data = false := by
      cases hp : leadsList (strLower query).data (strLower filename).data with
      | false => rfl
      | true => rw [hasSub_of_leadsList _ _ hp] at hsub; exact Bool.noConfusion hsub
    have hne : (strLower filename).data ≠ (strLower query).data := by
      intro heq
      rw [heq, leadsList_self] at hpre
      exact Bool.noConfusion hpre
    simp only [calculateRelevance, hne, if_false, hpre, hsub]
    exact Nat.min_le_right _ _
  · exact ((sortedScored_pairwise files query).sublist
      (List.take_sublist maxResults (sortedScored files query)))

/-- Witness for C9: one concrete score per tier, obtained through the tier
theorem. -/
theorem fileSearch_relevance_tiers_and_order_witness :
    calculateRelevance "main.ts" "main.ts" = 100 ∧
    calculateRelevance "main.ts" "main" = 80 ∧
    calculateRelevance "domain.ts" "main" = 60 ∧
    calculateRelevance "xyz.qqq" "main" ≤ 40 :=
  ⟨(fileSearch_relevance_tiers_and_order.1 "main.ts" "main.ts").1 rfl,
   (fileSearch_relevance_tiers_and_order.1 "main.ts" "main").2.1 (by decide) (by decide),
   (fileSearch_relevance_tiers_and_order.1 "domain.ts" "main").2.2.1 (by decide) (by decide),
   (fileSearch_relevance_tiers_and_order.1 "xyz.qqq" "main").2.2.2 (by decide)⟩
